import Mathlib

/-!
Verification of the hazel layer/event dispatch engine (rust-hazel).

The definitions below are shallow embeddings of the Rust source:
  * `src/hazel/src/layer.rs`   — `LayerId`, `LayerStack` and its operations;
  * `src/hazel/src/context.rs` — `LayerContext`, `EventContext` and its operations;
  * `src/hazel/src/event.rs`   — the normalized `Event` taxonomy and the
    `TryFrom<WinitEvent> for Event` conversion;
  * `src/hazel/src/lib.rs`     — the runner's event dispatch loop and its
    mouse-wheel conversion arm.

Machine integers (`usize`, `u32`, `i32`, `u16`) are modelled as `Nat`/`Int`.
The only arithmetic on them reachable with an overflow is the
`self.layer_insert -= 1` decrement in `LayerStack::pop_layer`; that point is
captured explicitly by `LayerStack.pop_layer_underflows` below (the surrounding
model uses truncating `Nat` subtraction, which agrees with the Rust semantics
whenever that predicate is false).  The monotone `next_id` counter and the
vector lengths are modelled as unbounded `Nat`: overflowing them would need
2^64 push calls, and Rust's checked arithmetic aborts rather than wraps there.

Floating point values (`f32`, `f64`) are modelled as `Rat`; the IEEE rounding
of the `as f32` narrowing cast is not modelled (`f32_of_f64` is
value-preserving).  No claim below depends on rounding: the mouse-scroll
claims are about which conversion arm applies a scale factor, and
multiplication by the scale factor 2.0 is exact in IEEE binary32.
-/

/-- Modelled from the spec: the `Position { x, y }` struct referenced by
`src/hazel/src/event.rs` (`crate::Position`) is not defined under `src/`;
the spec describes positions/offsets as pairs of coordinates. -/
structure Position (α : Type) where
  x : α
  y : α
deriving DecidableEq

/-- Modelled from the spec: the `Size { width, height }` struct referenced by
`src/hazel/src/event.rs` and `src/hazel/src/context.rs` (`crate::Size`) is
not defined under `src/`. -/
structure Size (α : Type) where
  width : α
  height : α
deriving DecidableEq

/-- Modelled from the spec: the error type referenced by
`src/hazel/src/event.rs` as `crate::Error::Event` is not defined under `src/`;
the spec (§7) calls it `ConversionError::Unsupported` — the single variant
signalled for a raw notification with no corresponding normalized variant. -/
inductive Error where
  | Event
deriving DecidableEq

/-- `layer.rs`: `pub struct LayerId(pub usize)` — an id is a bare `usize`. -/
abbrev LayerId := Nat

/-- One `(LayerId, Box<dyn Layer>)` entry of the stack vector (`layer.rs`,
field `layers: Vec<(LayerId, Box<dyn Layer>)>`).  The boxed layer payload is
host-defined and irrelevant to the stack algorithms; it is replaced by a
ghost flag `isOverlay` recording which push inserted the entry (`false` for
`push_layer`, `true` for `push_overlay`), which is needed to state the
boundary invariant about non-overlay entries. -/
structure Entry where
  id : LayerId
  isOverlay : Bool
deriving DecidableEq

/-- `layer.rs`: `pub struct LayerStack { layers, layer_insert, next_id }`. -/
structure LayerStack where
  layers : List Entry
  layer_insert : Nat
  next_id : Nat
deriving DecidableEq

/-- `layer.rs` `LayerStack::new` / `Default`: all fields zero/empty. -/
def LayerStack.new : LayerStack :=
  { layers := [], layer_insert := 0, next_id := 0 }

/-- `layer.rs` `LayerStack::len`. -/
def LayerStack.len (s : LayerStack) : Nat :=
  s.layers.length

/-- `layer.rs` `LayerStack::push_layer`:
`self.layers.insert(self.layer_insert, (layer_id, layer))` then
`self.layer_insert += 1; self.next_id += 1`, returning `layer_id`.
`Vec::insert` at index `i` is `take i ++ [element] ++ drop i` (it panics when
`i > len`; in that case this model appends instead — every theorem below only
evaluates it at reachable states where `layer_insert ≤ len`). -/
def LayerStack.push_layer (s : LayerStack) : LayerId × LayerStack :=
  let layer_id := s.next_id
  (layer_id,
    { layers := s.layers.take s.layer_insert
        ++ ⟨layer_id, false⟩ :: s.layers.drop s.layer_insert,
      layer_insert := s.layer_insert + 1,
      next_id := s.next_id + 1 })

/-- `layer.rs` `LayerStack::push_overlay`:
`self.layers.push((layer_id, overlay))` then `self.next_id += 1`,
returning `layer_id`; `layer_insert` is untouched. -/
def LayerStack.push_overlay (s : LayerStack) : LayerId × LayerStack :=
  let layer_id := s.next_id
  (layer_id,
    { s with layers := s.layers ++ [⟨layer_id, true⟩],
             next_id := s.next_id + 1 })

/-- `layer.rs` `pop_layer`/`pop_overlay` search:
`self.layers.iter().enumerate().find(|(_, it)| it.0 == layer_id)` —
the first (index, entry) pair whose id matches, scanning the WHOLE vector
(not restricted to either region).  `start` is the enumeration counter. -/
def find_entry (layer_id : LayerId) : Nat → List Entry → Option (Nat × Entry)
  | _, [] => none
  | start, it :: rest =>
    if it.id == layer_id then some (start, it)
    else find_entry layer_id (start + 1) rest

/-- `layer.rs` `LayerStack::pop_layer`: find the first entry matching
`layer_id` anywhere in the vector; if none, return `None` unchanged;
otherwise `Vec::remove(index)` (take index ++ drop (index+1)) and
`self.layer_insert -= 1` (the `tap`).  The decrement is `usize` subtraction:
when `layer_insert = 0` the Rust underflows (see
`LayerStack.pop_layer_underflows`); the model truncates at zero there and is
exact in every other case. -/
def LayerStack.pop_layer (layer_id : LayerId) (s : LayerStack) :
    Option Entry × LayerStack :=
  match find_entry layer_id 0 s.layers with
  | none => (none, s)
  | some (index, it) =>
    (some it,
      { s with layers := s.layers.take index ++ s.layers.drop (index + 1),
               layer_insert := s.layer_insert - 1 })

/-- `layer.rs` `LayerStack::pop_overlay`: identical to `pop_layer` except the
boundary `layer_insert` is left untouched. -/
def LayerStack.pop_overlay (layer_id : LayerId) (s : LayerStack) :
    Option Entry × LayerStack :=
  match find_entry layer_id 0 s.layers with
  | none => (none, s)
  | some (index, it) =>
    (some it,
      { s with layers := s.layers.take index ++ s.layers.drop (index + 1) })

/-- The exact condition under which the source's `self.layer_insert -= 1`
in `LayerStack::pop_layer` executes with `layer_insert = 0`: a matching entry
exists somewhere in the vector while the boundary is zero.  At such inputs the
Rust `usize` subtraction underflows — a panic in debug builds, a wrap to
`usize::MAX` in release builds. -/
def LayerStack.pop_layer_underflows (layer_id : LayerId) (s : LayerStack) : Bool :=
  (find_entry layer_id 0 s.layers).isSome && s.layer_insert == 0

/-- One call against the stack, for stating properties of call sequences. -/
inductive Op where
  | push_layer
  | push_overlay
  | pop_layer (id : LayerId)
  | pop_overlay (id : LayerId)
deriving DecidableEq

/-- The stack after one call (discarding the returned id/entry). -/
def applyOp (s : LayerStack) : Op → LayerStack
  | .push_layer => s.push_layer.2
  | .push_overlay => s.push_overlay.2
  | .pop_layer id => (LayerStack.pop_layer id s).2
  | .pop_overlay id => (LayerStack.pop_overlay id s).2

/-- The stack after a sequence of calls. -/
def execOps : LayerStack → List Op → LayerStack
  | s, [] => s
  | s, op :: rest => execOps (applyOp s op) rest

/-- The `LayerId`s returned by the push calls of a sequence, in call order. -/
def issuedIds : LayerStack → List Op → List LayerId
  | _, [] => []
  | s, .push_layer :: rest => s.push_layer.1 :: issuedIds s.push_layer.2 rest
  | s, .push_overlay :: rest => s.push_overlay.1 :: issuedIds s.push_overlay.2 rest
  | s, .pop_layer id :: rest => issuedIds (LayerStack.pop_layer id s).2 rest
  | s, .pop_overlay id :: rest => issuedIds (LayerStack.pop_overlay id s).2 rest

/-- Modelled from the spec: the event-dispatch iteration order.  The dispatch
loop (`lib.rs` `Context::on_event`, `for layer in &mut self.layer_stack`)
consumes an `IntoIterator` implementation for `&mut LayerStack` that is not
under `src/` (`layer.rs` only defines the forward `iter()`); the spec defines
it as "a reverse iterator over mutable references (front-to-back insertion
order reversed, i.e., most-recently-pushed-overlay first) for event
dispatch". -/
def LayerStack.dispatchOrder (s : LayerStack) : List Entry :=
  s.layers.reverse

/-- `lib.rs` `Context::on_event` dispatch loop:
`for layer in ... { if layer.on_event(..) { break } }` — every visited entry
receives exactly one `on_event` call, and the walk stops right after the
first entry whose handler returns `true`.  `handles` abstracts the
host-defined handler results; the value is the list of entries that receive a
call, in call order. -/
def dispatchCalls (handles : Entry → Bool) : List Entry → List Entry
  | [] => []
  | it :: rest =>
    it :: (if handles it then [] else dispatchCalls handles rest)

/-- A call is region-respecting when a pop's id, if matched at all, is matched
in the region the call is named after: `pop_layer` strictly before the
boundary, `pop_overlay` at or after it.  (Pushes always are; a pop whose id is
absent also is — the spec treats that as a legitimate "already gone".) -/
def opOk (s : LayerStack) : Op → Bool
  | .push_layer => true
  | .push_overlay => true
  | .pop_layer id =>
    match find_entry id 0 s.layers with
    | none => true
    | some (index, _) => decide (index < s.layer_insert)
  | .pop_overlay id =>
    match find_entry id 0 s.layers with
    | none => true
    | some (index, _) => decide (s.layer_insert ≤ index)

/-- Every call of the sequence is region-respecting in the state it runs in. -/
def opsOk : LayerStack → List Op → Bool
  | _, [] => true
  | s, op :: rest => opOk s op && opsOk (applyOp s op) rest

/-- Model of the external `winit::event_loop::ControlFlow` as used by
`context.rs` (`ControlFlow::Exit`); the `WaitUntil` instant is abstracted. -/
inductive ControlFlow where
  | Poll
  | Wait
  | WaitUntil (instant : Nat)
  | Exit
deriving DecidableEq

/-- `context.rs` `LayerContext<'a>`: frame duration, exclusive borrow of the
host application state (host-defined, modelled polymorphically), and the
optional control-flow sink.  The `Option<&'a mut ControlFlow>` borrow is
modelled as `Option ControlFlow`: `none` is "no sink attached", `some cf` is
a sink currently holding `cf`. -/
structure LayerContext (α : Type) where
  delta_time : Nat
  application : α
  control_flow : Option ControlFlow
deriving DecidableEq

/-- `context.rs` `EventContext<'a>`: a `LayerContext` plus the exclusive
borrow of the layer stack. -/
structure EventContext (α : Type) where
  layer_context : LayerContext α
  layer_stack : LayerStack
deriving DecidableEq

/-- The lifecycle hooks a context operation invokes on the layer it is
given, recorded as a trace (the hook runs before the stack mutation in every
operation below, per the source order). -/
inductive LifecycleHook where
  | on_attach
  | on_detach
deriving DecidableEq

/-- `context.rs` `EventContext::push_layer`:
`layer.on_attach(&mut self.layer_context); self.layer_stack.push_layer(layer)`
— invoke the attach hook, then insert, returning the new id. -/
def EventContext.push_layer (ctx : EventContext α) :
    LayerId × EventContext α × List LifecycleHook :=
  let r := ctx.layer_stack.push_layer
  (r.1, { ctx with layer_stack := r.2 }, [.on_attach])

/-- `context.rs` `EventContext::push_overlay`:
`overlay.on_attach(&mut self.layer_context); self.layer_stack.push_overlay(overlay)`. -/
def EventContext.push_overlay (ctx : EventContext α) :
    LayerId × EventContext α × List LifecycleHook :=
  let r := ctx.layer_stack.push_overlay
  (r.1, { ctx with layer_stack := r.2 }, [.on_attach])

/-- `context.rs` `EventContext::pop_layer` — translated exactly as written:
`layer.on_detach(&mut self.layer_context); self.layer_stack.push_layer(layer)`
— the body invokes the detach hook and then calls `push_layer`, INSERTING the
given layer and returning a fresh id; no entry is removed.  (The signature
takes a boxed layer, not an id, and returns `LayerId`.) -/
def EventContext.pop_layer (ctx : EventContext α) :
    LayerId × EventContext α × List LifecycleHook :=
  let r := ctx.layer_stack.push_layer
  (r.1, { ctx with layer_stack := r.2 }, [.on_detach])

/-- `context.rs` `EventContext::pop_overlay` — translated exactly as written:
`overlay.on_detach(&mut self.layer_context); self.layer_stack.push_overlay(overlay)`
— invokes the detach hook and then appends the given overlay. -/
def EventContext.pop_overlay (ctx : EventContext α) :
    LayerId × EventContext α × List LifecycleHook :=
  let r := ctx.layer_stack.push_overlay
  (r.1, { ctx with layer_stack := r.2 }, [.on_detach])

/-- `context.rs` `EventContext::exit`:
`if let Some(ref mut control_flow) = self.layer_context.control_flow
 { **control_flow = ControlFlow::Exit; }` — when a sink is attached, write
`Exit` through it; otherwise do nothing. -/
def EventContext.exit (ctx : EventContext α) : EventContext α :=
  match ctx.layer_context.control_flow with
  | some _ =>
    { ctx with layer_context :=
        { ctx.layer_context with control_flow := some ControlFlow.Exit } }
  | none => ctx
/-- Model of the external `winit::event::VirtualKeyCode` enum (the raw key
codes the windowing collaborator defines), with the variant list of the
`From<VirtualKeyCode> for KeyCode` mapping in `event.rs`. -/
inductive VirtualKeyCode where
  | Key1
  | Key2
  | Key3
  | Key4
  | Key5
  | Key6
  | Key7
  | Key8
  | Key9
  | Key0
  | A
  | B
  | C
  | D
  | E
  | F
  | G
  | H
  | I
  | J
  | K
  | L
  | M
  | N
  | O
  | P
  | Q
  | R
  | S
  | T
  | U
  | V
  | W
  | X
  | Y
  | Z
  | Escape
  | F1
  | F2
  | F3
  | F4
  | F5
  | F6
  | F7
  | F8
  | F9
  | F10
  | F11
  | F12
  | F13
  | F14
  | F15
  | F16
  | F17
  | F18
  | F19
  | F20
  | F21
  | F22
  | F23
  | F24
  | Snapshot
  | Scroll
  | Pause
  | Insert
  | Home
  | Delete
  | End
  | PageDown
  | PageUp
  | Left
  | Up
  | Right
  | Down
  | Back
  | Return
  | Space
  | Compose
  | Caret
  | Numlock
  | Numpad0
  | Numpad1
  | Numpad2
  | Numpad3
  | Numpad4
  | Numpad5
  | Numpad6
  | Numpad7
  | Numpad8
  | Numpad9
  | NumpadAdd
  | NumpadDivide
  | NumpadDecimal
  | NumpadComma
  | NumpadEnter
  | NumpadEquals
  | NumpadMultiply
  | NumpadSubtract
  | AbntC1
  | AbntC2
  | Apostrophe
  | Apps
  | Asterisk
  | At
  | Ax
  | Backslash
  | Calculator
  | Capital
  | Colon
  | Comma
  | Convert
  | Equals
  | Grave
  | Kana
  | Kanji
  | LAlt
  | LBracket
  | LControl
  | LShift
  | LWin
  | Mail
  | MediaSelect
  | MediaStop
  | Minus
  | Mute
  | MyComputer
  | NavigateForward
  | NavigateBackward
  | NextTrack
  | NoConvert
  | OEM102
  | Period
  | PlayPause
  | Plus
  | Power
  | PrevTrack
  | RAlt
  | RBracket
  | RControl
  | RShift
  | RWin
  | Semicolon
  | Slash
  | Sleep
  | Stop
  | Sysrq
  | Tab
  | Underline
  | Unlabeled
  | VolumeDown
  | VolumeUp
  | Wake
  | WebBack
  | WebFavorites
  | WebForward
  | WebHome
  | WebRefresh
  | WebSearch
  | WebStop
  | Yen
  | Copy
  | Paste
  | Cut
deriving DecidableEq

/-- `event.rs` `pub enum KeyCode` — the normalized key codes. -/
inductive KeyCode where
  | Key1
  | Key2
  | Key3
  | Key4
  | Key5
  | Key6
  | Key7
  | Key8
  | Key9
  | Key0
  | A
  | B
  | C
  | D
  | E
  | F
  | G
  | H
  | I
  | J
  | K
  | L
  | M
  | N
  | O
  | P
  | Q
  | R
  | S
  | T
  | U
  | V
  | W
  | X
  | Y
  | Z
  | Escape
  | F1
  | F2
  | F3
  | F4
  | F5
  | F6
  | F7
  | F8
  | F9
  | F10
  | F11
  | F12
  | F13
  | F14
  | F15
  | F16
  | F17
  | F18
  | F19
  | F20
  | F21
  | F22
  | F23
  | F24
  | Snapshot
  | Scroll
  | Pause
  | Insert
  | Home
  | Delete
  | End
  | PageDown
  | PageUp
  | Left
  | Up
  | Right
  | Down
  | Back
  | Return
  | Space
  | Compose
  | Caret
  | Numlock
  | Numpad0
  | Numpad1
  | Numpad2
  | Numpad3
  | Numpad4
  | Numpad5
  | Numpad6
  | Numpad7
  | Numpad8
  | Numpad9
  | NumpadAdd
  | NumpadDivide
  | NumpadDecimal
  | NumpadComma
  | NumpadEnter
  | NumpadEquals
  | NumpadMultiply
  | NumpadSubtract
  | AbntC1
  | AbntC2
  | Apostrophe
  | Apps
  | Asterisk
  | At
  | Ax
  | Backslash
  | Calculator
  | Capital
  | Colon
  | Comma
  | Convert
  | Equals
  | Grave
  | Kana
  | Kanji
  | LAlt
  | LBracket
  | LControl
  | LShift
  | LWin
  | Mail
  | MediaSelect
  | MediaStop
  | Minus
  | Mute
  | MyComputer
  | NavigateForward
  | NavigateBackward
  | NextTrack
  | NoConvert
  | OEM102
  | Period
  | PlayPause
  | Plus
  | Power
  | PrevTrack
  | RAlt
  | RBracket
  | RControl
  | RShift
  | RWin
  | Semicolon
  | Slash
  | Sleep
  | Stop
  | Sysrq
  | Tab
  | Underline
  | Unlabeled
  | VolumeDown
  | VolumeUp
  | Wake
  | WebBack
  | WebFavorites
  | WebForward
  | WebHome
  | WebRefresh
  | WebSearch
  | WebStop
  | Yen
  | Copy
  | Paste
  | Cut
deriving DecidableEq

/-- `event.rs` `impl From<VirtualKeyCode> for KeyCode`: the total,
variant-for-variant mapping from raw to normalized key codes. -/
def KeyCode.from_virtual : VirtualKeyCode → KeyCode
  | .Key1 => .Key1
  | .Key2 => .Key2
  | .Key3 => .Key3
  | .Key4 => .Key4
  | .Key5 => .Key5
  | .Key6 => .Key6
  | .Key7 => .Key7
  | .Key8 => .Key8
  | .Key9 => .Key9
  | .Key0 => .Key0
  | .A => .A
  | .B => .B
  | .C => .C
  | .D => .D
  | .E => .E
  | .F => .F
  | .G => .G
  | .H => .H
  | .I => .I
  | .J => .J
  | .K => .K
  | .L => .L
  | .M => .M
  | .N => .N
  | .O => .O
  | .P => .P
  | .Q => .Q
  | .R => .R
  | .S => .S
  | .T => .T
  | .U => .U
  | .V => .V
  | .W => .W
  | .X => .X
  | .Y => .Y
  | .Z => .Z
  | .Escape => .Escape
  | .F1 => .F1
  | .F2 => .F2
  | .F3 => .F3
  | .F4 => .F4
  | .F5 => .F5
  | .F6 => .F6
  | .F7 => .F7
  | .F8 => .F8
  | .F9 => .F9
  | .F10 => .F10
  | .F11 => .F11
  | .F12 => .F12
  | .F13 => .F13
  | .F14 => .F14
  | .F15 => .F15
  | .F16 => .F16
  | .F17 => .F17
  | .F18 => .F18
  | .F19 => .F19
  | .F20 => .F20
  | .F21 => .F21
  | .F22 => .F22
  | .F23 => .F23
  | .F24 => .F24
  | .Snapshot => .Snapshot
  | .Scroll => .Scroll
  | .Pause => .Pause
  | .Insert => .Insert
  | .Home => .Home
  | .Delete => .Delete
  | .End => .End
  | .PageDown => .PageDown
  | .PageUp => .PageUp
  | .Left => .Left
  | .Up => .Up
  | .Right => .Right
  | .Down => .Down
  | .Back => .Back
  | .Return => .Return
  | .Space => .Space
  | .Compose => .Compose
  | .Caret => .Caret
  | .Numlock => .Numlock
  | .Numpad0 => .Numpad0
  | .Numpad1 => .Numpad1
  | .Numpad2 => .Numpad2
  | .Numpad3 => .Numpad3
  | .Numpad4 => .Numpad4
  | .Numpad5 => .Numpad5
  | .Numpad6 => .Numpad6
  | .Numpad7 => .Numpad7
  | .Numpad8 => .Numpad8
  | .Numpad9 => .Numpad9
  | .NumpadAdd => .NumpadAdd
  | .NumpadDivide => .NumpadDivide
  | .NumpadDecimal => .NumpadDecimal
  | .NumpadComma => .NumpadComma
  | .NumpadEnter => .NumpadEnter
  | .NumpadEquals => .NumpadEquals
  | .NumpadMultiply => .NumpadMultiply
  | .NumpadSubtract => .NumpadSubtract
  | .AbntC1 => .AbntC1
  | .AbntC2 => .AbntC2
  | .Apostrophe => .Apostrophe
  | .Apps => .Apps
  | .Asterisk => .Asterisk
  | .At => .At
  | .Ax => .Ax
  | .Backslash => .Backslash
  | .Calculator => .Calculator
  | .Capital => .Capital
  | .Colon => .Colon
  | .Comma => .Comma
  | .Convert => .Convert
  | .Equals => .Equals
  | .Grave => .Grave
  | .Kana => .Kana
  | .Kanji => .Kanji
  | .LAlt => .LAlt
  | .LBracket => .LBracket
  | .LControl => .LControl
  | .LShift => .LShift
  | .LWin => .LWin
  | .Mail => .Mail
  | .MediaSelect => .MediaSelect
  | .MediaStop => .MediaStop
  | .Minus => .Minus
  | .Mute => .Mute
  | .MyComputer => .MyComputer
  | .NavigateForward => .NavigateForward
  | .NavigateBackward => .NavigateBackward
  | .NextTrack => .NextTrack
  | .NoConvert => .NoConvert
  | .OEM102 => .OEM102
  | .Period => .Period
  | .PlayPause => .PlayPause
  | .Plus => .Plus
  | .Power => .Power
  | .PrevTrack => .PrevTrack
  | .RAlt => .RAlt
  | .RBracket => .RBracket
  | .RControl => .RControl
  | .RShift => .RShift
  | .RWin => .RWin
  | .Semicolon => .Semicolon
  | .Slash => .Slash
  | .Sleep => .Sleep
  | .Stop => .Stop
  | .Sysrq => .Sysrq
  | .Tab => .Tab
  | .Underline => .Underline
  | .Unlabeled => .Unlabeled
  | .VolumeDown => .VolumeDown
  | .VolumeUp => .VolumeUp
  | .Wake => .Wake
  | .WebBack => .WebBack
  | .WebFavorites => .WebFavorites
  | .WebForward => .WebForward
  | .WebHome => .WebHome
  | .WebRefresh => .WebRefresh
  | .WebSearch => .WebSearch
  | .WebStop => .WebStop
  | .Yen => .Yen
  | .Copy => .Copy
  | .Paste => .Paste
  | .Cut => .Cut

/-- `event.rs` `pub enum MouseButton` (and model of the identically-shaped
external `winit::event::MouseButton`): `Other` carries a `u16`. -/
inductive MouseButton where
  | Left
  | Right
  | Middle
  | Other (button : Nat)
deriving DecidableEq

/-- `event.rs` `impl From<winit::event::MouseButton> for MouseButton`: the
winit button enum has the same four variants; the conversion is
variant-for-variant.  The winit side is reused here (same shape), so the
conversion is the identity on this model. -/
def MouseButton.from_winit : MouseButton → MouseButton
  | .Left => .Left
  | .Right => .Right
  | .Middle => .Middle
  | .Other button => .Other button

/-- Model of the external `winit::event::ElementState`. -/
inductive ElementState where
  | Pressed
  | Released
deriving DecidableEq

/-- Model of the external `winit::event::MouseScrollDelta`:
`LineDelta(f32, f32)` or `PixelDelta(PhysicalPosition<f64>)`;
floats as `Rat`. -/
inductive MouseScrollDelta where
  | LineDelta (x y : Rat)
  | PixelDelta (x y : Rat)
deriving DecidableEq

/-- The `f64 as f32` narrowing cast appearing in the conversion arms;
value-preserving in this model (IEEE rounding is not modelled — no claim
below depends on it). -/
def f32_of_f64 (x : Rat) : Rat := x

/-- Model of the external `winit::event::WindowEvent` restricted to the
shapes the conversion in `event.rs` matches on; `Other` stands for every
raw window notification kind with no arm of its own (the `_` catch-all).
The keyboard arm destructures `KeyboardInput { state, virtual_keycode, .. }`
where `virtual_keycode : Option<VirtualKeyCode>` — `none` is a key that
could not be mapped to a known code. -/
inductive WinitWindowEvent where
  | CloseRequested
  | Resized (width height : Nat)
  | ScaleFactorChanged (scale_factor : Rat)
  | Focused (is_focused : Bool)
  | Moved (x y : Int)
  | KeyboardInput (state : ElementState) (virtual_keycode : Option VirtualKeyCode)
  | ReceivedCharacter (character : Char)
  | MouseInput (state : ElementState) (button : MouseButton)
  | CursorMoved (x y : Rat)
  | MouseWheel (delta : MouseScrollDelta)
  | Other
deriving DecidableEq

/-- Model of the external `winit::event::Event`: either a window event or any
other top-level notification kind (the `_` catch-all of the conversion). -/
inductive WinitEvent where
  | WindowEvent (event : WinitWindowEvent)
  | Other
deriving DecidableEq

/-- `event.rs` `pub enum Event` — the normalized event taxonomy. -/
inductive Event where
  | WindowClose
  | WindowResize (size : Size Nat)
  | WindowFocus
  | WindowLostFocus
  | WindowMoved (offset : Position Int)
  | WindowScaleChange (scale : Rat)
  | AppTick
  | AppUpdate
  | AppRender
  | KeyPressed (key : KeyCode)
  | KeyReleased (key : KeyCode)
  | KeyTyped (character : Char)
  | MouseButtonPressed (button : MouseButton)
  | MouseButtonReleased (button : MouseButton)
  | MouseMoved (position : Position Rat)
  | MouseScrolled (offset : Position Rat)
deriving DecidableEq

/-- `event.rs` `impl TryFrom<WinitEvent> for Event` (`try_from`): the one-way
conversion from a raw platform notification to at most one normalized event.
Every arm of the source match is translated; the two `_` catch-alls (a window
kind with no handler, and a non-window top-level event) return
`Err(crate::Error::Event)`, as does a keyboard input whose
`virtual_keycode` is `None` (it fails the `Some(virtual_keycode)` pattern and
falls through to the catch-all). -/
def Event.try_from (winit_event : WinitEvent) : Except Error Event :=
  match winit_event with
  | .WindowEvent window_event =>
    match window_event with
    | .CloseRequested => .ok .WindowClose
    | .Resized width height => .ok (.WindowResize ⟨width, height⟩)
    | .ScaleFactorChanged scale_factor =>
      .ok (.WindowScaleChange (f32_of_f64 scale_factor))
    | .Focused is_focused =>
      .ok (if is_focused then .WindowFocus else .WindowLostFocus)
    | .Moved x y => .ok (.WindowMoved ⟨x, y⟩)
    | .KeyboardInput state (some virtual_keycode) =>
      match state with
      | .Pressed => .ok (.KeyPressed (KeyCode.from_virtual virtual_keycode))
      | .Released => .ok (.KeyReleased (KeyCode.from_virtual virtual_keycode))
    | .KeyboardInput _ none => .error .Event
    | .ReceivedCharacter character => .ok (.KeyTyped character)
    | .MouseInput state button =>
      match state with
      | .Pressed => .ok (.MouseButtonPressed (MouseButton.from_winit button))
      | .Released => .ok (.MouseButtonReleased (MouseButton.from_winit button))
    | .CursorMoved x y =>
      .ok (.MouseMoved ⟨f32_of_f64 x, f32_of_f64 y⟩)
    | .MouseWheel delta =>
      match delta with
      | .LineDelta x y => .ok (.MouseScrolled ⟨x, y⟩)
      | .PixelDelta x y => .ok (.MouseScrolled ⟨f32_of_f64 x, f32_of_f64 y⟩)
    | .Other => .error .Event
  | .Other => .error .Event

/-- `lib.rs` `Context::window_event`, `WindowEvent::MouseWheel` arm:
`let line_scale = 2.0; // hard-code a line pixel size of 2`. -/
def line_scale : Rat := 2

/-- `lib.rs` `Context::window_event`, `WindowEvent::MouseWheel` arm — the
runner's own scroll conversion: a line delta is scaled by `line_scale` into
`Event::MouseScrolled { x_offset, y_offset }`, a pixel delta is passed
through with only the `as f32` narrowing.  Modelled as the resulting
`(x_offset, y_offset)` pair. -/
def mouse_scrolled_offsets (delta : MouseScrollDelta) : Rat × Rat :=
  match delta with
  | .LineDelta x y => (x * line_scale, y * line_scale)
  | .PixelDelta x y => (f32_of_f64 x, f32_of_f64 y)

/-- The shape invariant of a stack subjected only to region-respecting calls:
the vector splits into a front region `A` of entries inserted by `push_layer`
and a back region `B` of entries inserted by `push_overlay`, with
`layer_insert` sitting exactly at the seam. -/
def Partitioned (s : LayerStack) : Prop :=
  ∃ A B, s.layers = A ++ B ∧ s.layer_insert = A.length ∧
    (∀ e ∈ A, e.isOverlay = false) ∧ (∀ e ∈ B, e.isOverlay = true)

theorem find_entry_some_facts (layer_id : LayerId) :
    ∀ (l : List Entry) (n i : Nat) (it : Entry),
      find_entry layer_id n l = some (i, it) →
      n ≤ i ∧ i - n < l.length ∧ it ∈ l ∧ it.id = layer_id := by
  intro l
  induction l with
  | nil => intro n i it h; simp [find_entry] at h
  | cons hd tl ih =>
    intro n i it h
    rw [find_entry] at h
    by_cases hid : (hd.id == layer_id) = true
    · rw [if_pos hid] at h
      obtain ⟨rfl, rfl⟩ : n = i ∧ hd = it := by
        constructor <;> [exact congrArg Prod.fst (Option.some.inj h);
          exact congrArg Prod.snd (Option.some.inj h)]
      exact ⟨Nat.le_refl n, by simp, List.mem_cons_self _ _, by simpa using hid⟩
    · rw [if_neg hid] at h
      obtain ⟨h1, h2, h3, h4⟩ := ih (n + 1) i it h
      exact ⟨by omega, by simp; omega, List.mem_cons_of_mem _ h3, h4⟩

theorem find_entry_none_iff (layer_id : LayerId) :
    ∀ (l : List Entry) (n : Nat),
      find_entry layer_id n l = none ↔ ∀ it ∈ l, it.id ≠ layer_id := by
  intro l
  induction l with
  | nil => intro n; simp [find_entry]
  | cons hd tl ih =>
    intro n
    rw [find_entry]
    by_cases hid : (hd.id == layer_id) = true
    · simp only [if_pos hid]
      constructor
      · intro h; cases h
      · intro h; exact absurd (by simpa using hid) (h hd (List.mem_cons_self _ _))
    · simp only [if_neg hid]
      rw [ih (n + 1)]
      constructor
      · intro h it hmem
        rcases List.mem_cons.mp hmem with rfl | hmem
        · simpa using hid
        · exact h it hmem
      · intro h it hmem; exact h it (List.mem_cons_of_mem _ hmem)

theorem pop_layer_next_id (layer_id : LayerId) (s : LayerStack) :
    (LayerStack.pop_layer layer_id s).2.next_id = s.next_id := by
  rw [LayerStack.pop_layer]
  cases h : find_entry layer_id 0 s.layers with
  | none => rfl
  | some p => cases p; rfl

theorem pop_overlay_next_id (layer_id : LayerId) (s : LayerStack) :
    (LayerStack.pop_overlay layer_id s).2.next_id = s.next_id := by
  rw [LayerStack.pop_overlay]
  cases h : find_entry layer_id 0 s.layers with
  | none => rfl
  | some p => cases p; rfl

theorem pop_layer_layers_subset (layer_id : LayerId) (s : LayerStack) :
    ∀ it ∈ (LayerStack.pop_layer layer_id s).2.layers, it ∈ s.layers := by
  rw [LayerStack.pop_layer]
  cases h : find_entry layer_id 0 s.layers with
  | none => intro it hmem; exact hmem
  | some p =>
    cases p
    intro it hmem
    rcases List.mem_append.mp hmem with hmem | hmem
    · exact List.mem_of_mem_take hmem
    · exact List.mem_of_mem_drop hmem

theorem pop_overlay_layers_subset (layer_id : LayerId) (s : LayerStack) :
    ∀ it ∈ (LayerStack.pop_overlay layer_id s).2.layers, it ∈ s.layers := by
  rw [LayerStack.pop_overlay]
  cases h : find_entry layer_id 0 s.layers with
  | none => intro it hmem; exact hmem
  | some p =>
    cases p
    intro it hmem
    rcases List.mem_append.mp hmem with hmem | hmem
    · exact List.mem_of_mem_take hmem
    · exact List.mem_of_mem_drop hmem

theorem next_id_le_applyOp (s : LayerStack) (op : Op) :
    s.next_id ≤ (applyOp s op).next_id := by
  cases op with
  | push_layer => exact Nat.le_succ _
  | push_overlay => exact Nat.le_succ _
  | pop_layer id => rw [applyOp, pop_layer_next_id]
  | pop_overlay id => rw [applyOp, pop_overlay_next_id]

theorem issued_lower : ∀ (ops : List Op) (s : LayerStack),
    ∀ x ∈ issuedIds s ops, s.next_id ≤ x := by
  intro ops
  induction ops with
  | nil => intro s x hx; simp [issuedIds] at hx
  | cons op rest ih =>
    intro s x hx
    cases op with
    | push_layer =>
      rw [issuedIds] at hx
      rcases List.mem_cons.mp hx with rfl | hx
      · exact Nat.le_refl _
      · exact Nat.le_of_succ_le (ih s.push_layer.2 x hx)
    | push_overlay =>
      rw [issuedIds] at hx
      rcases List.mem_cons.mp hx with rfl | hx
      · exact Nat.le_refl _
      · exact Nat.le_of_succ_le (ih s.push_overlay.2 x hx)
    | pop_layer id =>
      rw [issuedIds] at hx
      have := ih (LayerStack.pop_layer id s).2 x hx
      rwa [pop_layer_next_id] at this
    | pop_overlay id =>
      rw [issuedIds] at hx
      have := ih (LayerStack.pop_overlay id s).2 x hx
      rwa [pop_overlay_next_id] at this

theorem issued_pairwise : ∀ (ops : List Op) (s : LayerStack),
    (issuedIds s ops).Pairwise (· < ·) := by
  intro ops
  induction ops with
  | nil => intro s; simp [issuedIds]
  | cons op rest ih =>
    intro s
    cases op with
    | push_layer =>
      rw [issuedIds]
      refine List.Pairwise.cons ?_ (ih s.push_layer.2)
      intro x hx
      exact Nat.lt_of_succ_le (issued_lower rest s.push_layer.2 x hx)
    | push_overlay =>
      rw [issuedIds]
      refine List.Pairwise.cons ?_ (ih s.push_overlay.2)
      intro x hx
      exact Nat.lt_of_succ_le (issued_lower rest s.push_overlay.2 x hx)
    | pop_layer id => rw [issuedIds]; exact ih _
    | pop_overlay id => rw [issuedIds]; exact ih _

theorem stack_ids_bound_applyOp (s : LayerStack) (op : Op)
    (h : ∀ it ∈ s.layers, it.id < s.next_id) :
    ∀ it ∈ (applyOp s op).layers, it.id < (applyOp s op).next_id := by
  cases op with
  | push_layer =>
    intro it hmem
    rw [applyOp, LayerStack.push_layer] at hmem ⊢
    rcases List.mem_append.mp hmem with hmem | hmem
    · exact Nat.lt_succ_of_lt (h it (List.mem_of_mem_take hmem))
    · rcases List.mem_cons.mp hmem with rfl | hmem
      · exact Nat.lt_succ_self _
      · exact Nat.lt_succ_of_lt (h it (List.mem_of_mem_drop hmem))
  | push_overlay =>
    intro it hmem
    rw [applyOp, LayerStack.push_overlay] at hmem ⊢
    rcases List.mem_append.mp hmem with hmem | hmem
    · exact Nat.lt_succ_of_lt (h it hmem)
    · rcases List.mem_cons.mp hmem with rfl | hmem
      · exact Nat.lt_succ_self _
      · simp at hmem
  | pop_layer id =>
    intro it hmem
    rw [applyOp] at hmem ⊢
    rw [pop_layer_next_id]
    exact h it (pop_layer_layers_subset id s it hmem)
  | pop_overlay id =>
    intro it hmem
    rw [applyOp] at hmem ⊢
    rw [pop_overlay_next_id]
    exact h it (pop_overlay_layers_subset id s it hmem)

theorem stack_ids_bound_execOps : ∀ (ops : List Op) (s : LayerStack),
    (∀ it ∈ s.layers, it.id < s.next_id) →
    ∀ it ∈ (execOps s ops).layers, it.id < (execOps s ops).next_id := by
  intro ops
  induction ops with
  | nil => intro s h; exact h
  | cons op rest ih =>
    intro s h
    rw [execOps]
    exact ih (applyOp s op) (stack_ids_bound_applyOp s op h)

theorem issuedIds_eq_after_applyOp (s : LayerStack) (op : Op) (rest : List Op) :
    issuedIds s (op :: rest) =
      (match op with
        | .push_layer => [s.push_layer.1]
        | .push_overlay => [s.push_overlay.1]
        | _ => []) ++ issuedIds (applyOp s op) rest := by
  cases op <;> rfl

theorem partitioned_applyOp (s : LayerStack) (op : Op)
    (hp : Partitioned s) (hok : opOk s op = true) :
    Partitioned (applyOp s op) := by
  obtain ⟨A, B, hl, hli, hA, hB⟩ := hp
  cases op with
  | push_layer =>
    refine ⟨A ++ [⟨s.next_id, false⟩], B, ?_, ?_, ?_, hB⟩
    · simp only [applyOp, LayerStack.push_layer]
      rw [hl, hli, List.take_left, List.drop_left, List.append_assoc]
      rfl
    · simp only [applyOp, LayerStack.push_layer, List.length_append,
        List.length_singleton, hli]
    · intro it hmem
      rcases List.mem_append.mp hmem with hmem | hmem
      · exact hA it hmem
      · rcases List.mem_singleton.mp hmem with rfl; rfl
  | push_overlay =>
    refine ⟨A, B ++ [⟨s.next_id, true⟩], ?_, ?_, hA, ?_⟩
    · simp only [applyOp, LayerStack.push_overlay]
      rw [hl, List.append_assoc]
    · simpa only [applyOp, LayerStack.push_overlay] using hli
    · intro it hmem
      rcases List.mem_append.mp hmem with hmem | hmem
      · exact hB it hmem
      · rcases List.mem_singleton.mp hmem with rfl; rfl
  | pop_layer id =>
    rw [applyOp, LayerStack.pop_layer]
    cases hf : find_entry id 0 s.layers with
    | none => exact ⟨A, B, hl, hli, hA, hB⟩
    | some p =>
      obtain ⟨i, it⟩ := p
      rw [opOk, hf] at hok
      have hiA : i < A.length := by rw [← hli]; exact of_decide_eq_true hok
      refine ⟨A.take i ++ A.drop (i + 1), B, ?_, ?_, ?_, hB⟩
      · show s.layers.take i ++ s.layers.drop (i + 1) = _
        rw [hl, List.take_append_of_le_length (Nat.le_of_lt hiA),
          List.drop_append_of_le_length hiA, List.append_assoc]
      · show s.layer_insert - 1 = _
        rw [hli, List.length_append, List.length_take, List.length_drop]
        omega
      · intro e hmem
        rcases List.mem_append.mp hmem with hmem | hmem
        · exact hA e (List.mem_of_mem_take hmem)
        · exact hA e (List.mem_of_mem_drop hmem)
  | pop_overlay id =>
    rw [applyOp, LayerStack.pop_overlay]
    cases hf : find_entry id 0 s.layers with
    | none => exact ⟨A, B, hl, hli, hA, hB⟩
    | some p =>
      obtain ⟨i, it⟩ := p
      rw [opOk, hf] at hok
      have hiA : A.length ≤ i := by rw [← hli]; exact of_decide_eq_true hok
      have hlen : i < A.length + B.length := by
        have := (find_entry_some_facts id s.layers 0 i it hf).2.1
        rw [hl, List.length_append] at this
        omega
      refine ⟨A, B.take (i - A.length) ++ B.drop (i - A.length + 1), ?_, hli, hA, ?_⟩
      · show s.layers.take i ++ s.layers.drop (i + 1) = _
        have hi1 : i = A.length + (i - A.length) := by omega
        have hi2 : i + 1 = A.length + (i - A.length + 1) := by omega
        rw [hl, hi1, List.take_append, ← hi1, hi2, List.drop_append,
          List.append_assoc]
      · intro e hmem
        rcases List.mem_append.mp hmem with hmem | hmem
        · exact hB e (List.mem_of_mem_take hmem)
        · exact hB e (List.mem_of_mem_drop hmem)

theorem partitioned_execOps : ∀ (ops : List Op) (s : LayerStack),
    Partitioned s → opsOk s ops = true → Partitioned (execOps s ops) := by
  intro ops
  induction ops with
  | nil => intro s hp _; exact hp
  | cons op rest ih =>
    intro s hp hok
    rw [opsOk, Bool.and_eq_true] at hok
    rw [execOps]
    exact ih (applyOp s op) (partitioned_applyOp s op hp hok.1) hok.2

theorem partitioned_new : Partitioned LayerStack.new :=
  ⟨[], [], rfl, rfl, by simp, by simp⟩

theorem partitioned_countP (s : LayerStack) (hp : Partitioned s) :
    s.layers.countP (fun e => e.isOverlay == false) = s.layer_insert := by
  obtain ⟨A, B, hl, hli, hA, hB⟩ := hp
  rw [hl, hli, List.countP_append]
  have h1 : A.countP (fun e => e.isOverlay == false) = A.length :=
    List.countP_eq_length.mpr (fun e he => by rw [hA e he]; rfl)
  have h2 : B.countP (fun e => e.isOverlay == false) = 0 :=
    List.countP_eq_zero.mpr (fun e he => by rw [hB e he]; simp)
  omega

theorem dispatchCalls_eq_take (handles : Entry → Bool) :
    ∀ (order : List Entry) (k : Nat) (hk : k < order.length),
      handles (order.get ⟨k, hk⟩) = true →
      (∀ j (hj : j < k), handles (order.get ⟨j, Nat.lt_trans hj hk⟩) = false) →
      dispatchCalls handles order = order.take (k + 1) := by
  intro order
  induction order with
  | nil => intro k hk; simp at hk
  | cons hd tl ih =>
    intro k hk hhit hbefore
    cases k with
    | zero =>
      have : handles hd = true := hhit
      rw [dispatchCalls, if_pos this]
      rfl
    | succ k =>
      have hhd : handles hd = false := hbefore 0 (Nat.succ_pos k)
      rw [dispatchCalls, if_neg (by rw [hhd]; exact Bool.false_ne_true)]
      have htl := ih k (Nat.lt_of_succ_lt_succ hk) hhit
        (fun j hj => hbefore (j + 1) (Nat.succ_lt_succ hj))
      rw [htl]
      rfl

theorem dispatchCalls_eq_self (handles : Entry → Bool) :
    ∀ (order : List Entry), (∀ e ∈ order, handles e = false) →
      dispatchCalls handles order = order := by
  intro order
  induction order with
  | nil => intro _; rfl
  | cons hd tl ih =>
    intro h
    rw [dispatchCalls,
      if_neg (by rw [h hd (List.mem_cons_self _ _)]; exact Bool.false_ne_true),
      ih (fun e he => h e (List.mem_cons_of_mem _ he))]

theorem count_take_nodup (l : List Entry) (hnd : l.Nodup) (n m : Nat)
    (hm : m < l.length) :
    (l.take n).count (l.get ⟨m, hm⟩) = if m < n then 1 else 0 := by
  by_cases hmn : m < n
  · rw [if_pos hmn]
    refine List.count_eq_one_of_mem (hnd.sublist (List.take_sublist n l)) ?_
    rw [List.mem_take_iff_getElem]
    exact ⟨m, by omega, by simp⟩
  · rw [if_neg hmn]
    rw [List.count_eq_zero]
    intro hcontra
    rw [List.mem_take_iff_getElem] at hcontra
    obtain ⟨j, hj, hje⟩ := hcontra
    have hjl : j < l.length := by omega
    have : l.get ⟨j, hjl⟩ = l.get ⟨m, hm⟩ := by simpa using hje
    have := hnd.get_inj_iff.mp this
    have : j = m := congrArg Fin.val this
    omega

/-- C1 (counterexample): the boundary invariant does NOT hold after every
sequence of calls.  From a new stack, `push_layer` (issues id 0, boundary 1),
then `pop_overlay(0)`: `pop_overlay` finds id 0 anywhere in the vector — here
in the regular-layer region — removes it and leaves `layer_insert` untouched.
The resulting stack has `layer_insert = 1` but zero currently-present
non-overlay entries. -/
theorem c1_boundary_counterexample :
    (execOps LayerStack.new [Op.push_layer, Op.pop_overlay 0]).layer_insert = 1 ∧
    (execOps LayerStack.new [Op.push_layer, Op.pop_overlay 0]).layers.countP
        (fun e => e.isOverlay == false) = 0 ∧
    (execOps LayerStack.new [Op.push_layer, Op.pop_overlay 0]).layer_insert ≠
      (execOps LayerStack.new [Op.push_layer, Op.pop_overlay 0]).layers.countP
        (fun e => e.isOverlay == false) := by
  refine ⟨rfl, rfl, ?_⟩
  decide

/-- C1 (amended): for every sequence of `push_layer`/`push_overlay`/
`pop_layer`/`pop_overlay` calls starting from a new `LayerStack` in which
every pop is region-respecting (a `pop_layer` id, when matched at all, is
matched strictly before the boundary, and a `pop_overlay` id at or after it;
absent ids are always fine), the boundary index `layer_insert` equals exactly
the number of currently-present non-overlay entries (entries inserted by
`push_layer` and not yet removed). -/
theorem c1_boundary_invariant (ops : List Op)
    (h : opsOk LayerStack.new ops = true) :
    (execOps LayerStack.new ops).layer_insert
      = (execOps LayerStack.new ops).layers.countP
          (fun e => e.isOverlay == false) :=
  (partitioned_countP _ (partitioned_execOps ops LayerStack.new partitioned_new h)).symm

/-- C1 witness: a concrete region-respecting sequence exercising all four
call kinds satisfies the hypothesis and the invariant. -/
theorem c1_boundary_invariant_witness :
    opsOk LayerStack.new
        [Op.push_layer, Op.push_overlay, Op.pop_layer 0, Op.pop_overlay 1] = true ∧
    (execOps LayerStack.new
        [Op.push_layer, Op.push_overlay, Op.pop_layer 0, Op.pop_overlay 1]).layer_insert
      = (execOps LayerStack.new
          [Op.push_layer, Op.push_overlay, Op.pop_layer 0, Op.pop_overlay 1]).layers.countP
            (fun e => e.isOverlay == false) :=
  ⟨by decide, c1_boundary_invariant _ (by decide)⟩

/-- C2: event dispatch visits the stack back-to-front — the dispatch order is
the reverse of the vector, i.e. the overlay region (entries at or after the
boundary) reversed, followed by the regular-layer region reversed, so all
overlays come before all regular layers, each region most-recently-pushed
first; in particular pushing layers L1 (id 0), L2 (id 1) then overlay O1
(id 2) gives the dispatch order [O1, L2, L1]. -/
theorem c2_dispatch_order :
    (∀ s : LayerStack,
        s.dispatchOrder = (s.layers.drop s.layer_insert).reverse
          ++ (s.layers.take s.layer_insert).reverse) ∧
    (execOps LayerStack.new
        [Op.push_layer, Op.push_layer, Op.push_overlay]).dispatchOrder
      = [⟨2, true⟩, ⟨1, false⟩, ⟨0, false⟩] := by
  constructor
  · intro s
    calc s.dispatchOrder = s.layers.reverse := rfl
      _ = (s.layers.take s.layer_insert ++ s.layers.drop s.layer_insert).reverse := by
          rw [List.take_append_drop]
      _ = (s.layers.drop s.layer_insert).reverse
            ++ (s.layers.take s.layer_insert).reverse :=
          List.reverse_append _ _
  · rfl

/-- C4 (counterexample): `pop_layer(id)` does NOT return `None` when the id
is matched outside the regular-layer region.  After a single `push_overlay`
the only entry (id 0, an overlay, at index 0 with `layer_insert = 0`, hence in
the overlay region) is nevertheless removed and returned by `pop_layer 0`,
where the claim requires `None` and an unchanged stack. -/
theorem c4_pop_layer_cross_region_counterexample :
    (execOps LayerStack.new [Op.push_overlay]).layer_insert = 0 ∧
    (LayerStack.pop_layer 0 (execOps LayerStack.new [Op.push_overlay])).1
      = some ⟨0, true⟩ ∧
    (LayerStack.pop_layer 0 (execOps LayerStack.new [Op.push_overlay])).2.layers
      = [] := by
  refine ⟨rfl, rfl, rfl⟩

/-- C4 (amended): `pop_layer(id)` and `pop_overlay(id)` remove and return the
first entry with matching id wherever it sits in the stack, with no region
restriction — `pop_layer` decrements the boundary whenever it removes (even
when the removed entry is an overlay), `pop_overlay` never does; when no
entry with that id exists anywhere, each returns `None` and leaves the stack,
including `layer_insert`, unchanged. -/
theorem c4_pop_by_id (s : LayerStack) (layer_id : LayerId) :
    (find_entry layer_id 0 s.layers = none →
        LayerStack.pop_layer layer_id s = (none, s) ∧
        LayerStack.pop_overlay layer_id s = (none, s)) ∧
    (∀ index it, find_entry layer_id 0 s.layers = some (index, it) →
        it.id = layer_id ∧ it ∈ s.layers ∧
        LayerStack.pop_layer layer_id s =
          (some it,
            { s with layers := s.layers.take index ++ s.layers.drop (index + 1),
                     layer_insert := s.layer_insert - 1 }) ∧
        LayerStack.pop_overlay layer_id s =
          (some it,
            { s with layers := s.layers.take index ++ s.layers.drop (index + 1) })) := by
  constructor
  · intro h
    rw [LayerStack.pop_layer, LayerStack.pop_overlay, h]
    exact ⟨rfl, rfl⟩
  · intro index it h
    have hf := find_entry_some_facts layer_id s.layers 0 index it h
    rw [LayerStack.pop_layer, LayerStack.pop_overlay, h]
    exact ⟨hf.2.2.2, hf.2.2.1, rfl, rfl⟩

/-- C4 witness: with an absent id (5) both pops return `None` and leave the
one-layer stack unchanged; with a present id (0) `pop_layer` removes it and
decrements the boundary. -/
theorem c4_pop_by_id_witness :
    (LayerStack.pop_layer 5 (execOps LayerStack.new [Op.push_layer])
        = (none, execOps LayerStack.new [Op.push_layer]) ∧
      LayerStack.pop_overlay 5 (execOps LayerStack.new [Op.push_layer])
        = (none, execOps LayerStack.new [Op.push_layer])) ∧
    LayerStack.pop_layer 0 (execOps LayerStack.new [Op.push_layer])
      = (some ⟨0, false⟩, { layers := [], layer_insert := 0, next_id := 1 }) := by
  constructor
  · exact (c4_pop_by_id (execOps LayerStack.new [Op.push_layer]) 5).1 (by decide)
  · have h := ((c4_pop_by_id (execOps LayerStack.new [Op.push_layer]) 0).2
      0 ⟨0, false⟩ (by decide)).2.2.1
    exact h.trans (by decide)

/-- C10: the claim that `pop_layer` is total is wrong on the code — the
boundary decrement CAN underflow.  After a single `push_overlay` the stack
holds one entry (id 0, in the overlay region) and `layer_insert = 0`; calling
`pop_layer 0` finds it, so the source executes `self.layer_insert -= 1` with
`layer_insert = 0`: `LayerStack.pop_layer_underflows` is true exactly there
(debug builds panic, release builds wrap the `usize` to `usize::MAX`). -/
theorem c10_pop_layer_underflow :
    (execOps LayerStack.new [Op.push_overlay]).layer_insert = 0 ∧
    (find_entry 0 0 (execOps LayerStack.new [Op.push_overlay]).layers).isSome
      = true ∧
    LayerStack.pop_layer_underflows 0 (execOps LayerStack.new [Op.push_overlay])
      = true := by
  refine ⟨rfl, rfl, rfl⟩

/-- C6: across any sequence of calls from a new stack, the ids returned by
the pushes are strictly increasing in call order (hence pairwise distinct and
each strictly larger than every earlier push's id), and every id present in
the stack after any prefix — in particular any id a later call pops — is
strictly smaller than every id issued by a push of the remaining calls, so a
popped id is never reassigned. -/
theorem c6_id_uniqueness (ops : List Op) :
    (issuedIds LayerStack.new ops).Pairwise (· < ·) ∧
    (∀ pre post, ops = pre ++ post →
      ∀ it ∈ (execOps LayerStack.new pre).layers,
        ∀ j ∈ issuedIds (execOps LayerStack.new pre) post, it.id < j) := by
  constructor
  · exact issued_pairwise ops LayerStack.new
  · intro pre post _ it hmem j hj
    have h1 : it.id < (execOps LayerStack.new pre).next_id :=
      stack_ids_bound_execOps pre LayerStack.new
        (by intro e he; simp [LayerStack.new] at he) it hmem
    have h2 := issued_lower post (execOps LayerStack.new pre) j hj
    exact Nat.lt_of_lt_of_le h1 h2

/-- C6 witness: for the sequence push, pop(0), push: the issued ids [0, 1]
are strictly increasing, and the popped id 0 (present after the prefix
[push_layer]) is smaller than the id 1 issued afterwards — it is not
reassigned. -/
theorem c6_id_uniqueness_witness :
    (issuedIds LayerStack.new
        [Op.push_layer, Op.pop_layer 0, Op.push_layer]).Pairwise (· < ·) ∧
    (⟨0, false⟩ : Entry).id < 1 := by
  constructor
  · exact (c6_id_uniqueness [Op.push_layer, Op.pop_layer 0, Op.push_layer]).1
  · exact (c6_id_uniqueness [Op.push_layer, Op.pop_layer 0, Op.push_layer]).2
      [Op.push_layer] [Op.pop_layer 0, Op.push_layer] rfl
      ⟨0, false⟩ (by decide) 1 (by decide)

/-- C3: for every event dispatched over the stack (a `handles` function
giving each entry's `on_event` result, over a duplicate-free dispatch order),
if the k-th visited entry is the first whose handler returns true, then
every entry at position at most k receives exactly one `on_event` call and
every entry after position k receives zero; if no entry returns true, every
entry receives exactly one call. -/
theorem c3_short_circuit (handles : Entry → Bool) (s : LayerStack)
    (hnd : s.dispatchOrder.Nodup) :
    (∀ k, ∀ hk : k < s.dispatchOrder.length,
        handles (s.dispatchOrder.get ⟨k, hk⟩) = true →
        (∀ j, ∀ hj : j < k,
          handles (s.dispatchOrder.get ⟨j, Nat.lt_trans hj hk⟩) = false) →
        ∀ m, ∀ hm : m < s.dispatchOrder.length,
          (dispatchCalls handles s.dispatchOrder).count
              (s.dispatchOrder.get ⟨m, hm⟩)
            = if m ≤ k then 1 else 0) ∧
    ((∀ e ∈ s.dispatchOrder, handles e = false) →
        ∀ m, ∀ hm : m < s.dispatchOrder.length,
          (dispatchCalls handles s.dispatchOrder).count
              (s.dispatchOrder.get ⟨m, hm⟩) = 1) := by
  constructor
  · intro k hk hhit hbefore m hm
    rw [dispatchCalls_eq_take handles s.dispatchOrder k hk hhit hbefore,
      count_take_nodup s.dispatchOrder hnd (k + 1) m hm]
    rcases Nat.lt_or_ge m (k + 1) with h | h
    · rw [if_pos h, if_pos (Nat.lt_succ_iff.mp h)]
    · rw [if_neg (by omega), if_neg (by omega)]
  · intro hnone m hm
    rw [dispatchCalls_eq_self handles s.dispatchOrder hnone]
    exact List.count_eq_one_of_mem hnd (List.get_mem s.dispatchOrder m hm)

/-- C3 witness: dispatch order [O1 (id 2), L2 (id 1), L1 (id 0)] with the
handler of id 1 returning true (so k = 1): O1 and L2 each receive exactly one
call, L1 receives zero. -/
theorem c3_short_circuit_witness :
    (dispatchCalls (fun e => e.id == 1)
        (execOps LayerStack.new
          [Op.push_layer, Op.push_layer, Op.push_overlay]).dispatchOrder).count
      ((execOps LayerStack.new
          [Op.push_layer, Op.push_layer, Op.push_overlay]).dispatchOrder.get
        ⟨2, by decide⟩) = 0 ∧
    (dispatchCalls (fun e => e.id == 1)
        (execOps LayerStack.new
          [Op.push_layer, Op.push_layer, Op.push_overlay]).dispatchOrder).count
      ((execOps LayerStack.new
          [Op.push_layer, Op.push_layer, Op.push_overlay]).dispatchOrder.get
        ⟨0, by decide⟩) = 1 := by
  have hc := (c3_short_circuit (fun e => e.id == 1)
    (execOps LayerStack.new [Op.push_layer, Op.push_layer, Op.push_overlay])
    (by decide)).1 1 (by decide) (by decide)
    (by intro j hj
        have hj0 : j = 0 := Nat.lt_one_iff.mp hj
        revert hj
        rw [hj0]
        intro hj
        exact (by decide :
          (((execOps LayerStack.new
              [Op.push_layer, Op.push_layer, Op.push_overlay]).dispatchOrder.get
            ⟨0, by decide⟩).id == 1) = false))
  exact ⟨(hc 2 (by decide)).trans (by decide), (hc 0 (by decide)).trans (by decide)⟩

/-- C5: the dispatch-level context's push operations invoke `on_attach` and
insert, but its pop operations do NOT remove: `EventContext::pop_layer`
(resp. `pop_overlay`) invokes `on_detach` on the layer it is handed and then
calls `LayerStack::push_layer` (resp. `push_overlay`), INSERTING that layer
as a new entry and returning a fresh id.  Evaluated on a context whose stack
holds the single layer entry ⟨0, false⟩: after `pop_layer` the stack has
grown to two entries, the old entry is still present, the returned value is
the fresh id 1, and the hook trace is [on_detach]; `pop_overlay` likewise
appends an overlay entry. -/
theorem c5_ctx_pop_inserts :
    EventContext.pop_layer (α := Unit)
        { layer_context := { delta_time := 0, application := (), control_flow := none },
          layer_stack := { layers := [⟨0, false⟩], layer_insert := 1, next_id := 1 } }
      = (1,
          { layer_context := { delta_time := 0, application := (), control_flow := none },
            layer_stack :=
              { layers := [⟨0, false⟩, ⟨1, false⟩], layer_insert := 2, next_id := 2 } },
          [LifecycleHook.on_detach]) ∧
    EventContext.pop_overlay (α := Unit)
        { layer_context := { delta_time := 0, application := (), control_flow := none },
          layer_stack := { layers := [⟨0, false⟩], layer_insert := 1, next_id := 1 } }
      = (1,
          { layer_context := { delta_time := 0, application := (), control_flow := none },
            layer_stack :=
              { layers := [⟨0, false⟩, ⟨1, true⟩], layer_insert := 1, next_id := 2 } },
          [LifecycleHook.on_detach]) := by
  exact ⟨rfl, rfl⟩

/-- C7: the conversion from a raw platform notification is total and yields
exactly one normalized event or the `Unsupported` error (`Error.Event`),
never two results and never a panic (the match covers every input); in
particular a keyboard notification whose key could not be mapped to a known
code (`virtual_keycode = None`, either key state) and any window or
top-level notification kind with no corresponding variant yield the error. -/
theorem c7_conversion_total :
    (∀ e : WinitEvent, (∃ ev, Event.try_from e = Except.ok ev)
        ∨ Event.try_from e = Except.error Error.Event) ∧
    (∀ state, Event.try_from
        (.WindowEvent (.KeyboardInput state none)) = Except.error Error.Event) ∧
    Event.try_from (.WindowEvent .Other) = Except.error Error.Event ∧
    Event.try_from .Other = Except.error Error.Event := by
  refine ⟨?_, ?_, rfl, rfl⟩
  · intro e
    match e with
    | .Other => exact Or.inr rfl
    | .WindowEvent we =>
      match we with
      | .CloseRequested => exact Or.inl ⟨_, rfl⟩
      | .Resized w h => exact Or.inl ⟨_, rfl⟩
      | .ScaleFactorChanged f => exact Or.inl ⟨_, rfl⟩
      | .Focused b => exact Or.inl ⟨_, rfl⟩
      | .Moved x y => exact Or.inl ⟨_, rfl⟩
      | .KeyboardInput st (some vk) => cases st <;> exact Or.inl ⟨_, rfl⟩
      | .KeyboardInput st none => cases st <;> exact Or.inr rfl
      | .ReceivedCharacter c => exact Or.inl ⟨_, rfl⟩
      | .MouseInput st b => cases st <;> exact Or.inl ⟨_, rfl⟩
      | .CursorMoved x y => exact Or.inl ⟨_, rfl⟩
      | .MouseWheel d => cases d <;> exact Or.inl ⟨_, rfl⟩
      | .Other => exact Or.inr rfl
  · intro st; cases st <;> rfl

/-- C8 (counterexample): the claim is false at the `event.rs` conversion —
its `MouseWheel` line-delta arm passes the offsets through UNSCALED: a
`LineDelta(1, 1)` converts to `MouseScrolled` offsets (1, 1), not the
(2, 2) the explicit documented scale factor (`line_scale = 2.0` in `lib.rs`)
would produce. -/
theorem c8_line_delta_unscaled_counterexample :
    Event.try_from (.WindowEvent (.MouseWheel (.LineDelta 1 1)))
      = Except.ok (.MouseScrolled ⟨1, 1⟩) ∧
    mouse_scrolled_offsets (.LineDelta 1 1) = (2, 2) ∧
    Event.try_from (.WindowEvent (.MouseWheel (.LineDelta 1 1)))
      ≠ Except.ok (.MouseScrolled ⟨1 * line_scale, 1 * line_scale⟩) := by
  refine ⟨rfl, ?_, ?_⟩
  · show ((1 : Rat) * line_scale, (1 : Rat) * line_scale) = ((2 : Rat), (2 : Rat))
    rw [line_scale]; norm_num
  · intro h
    have h2 := Except.ok.inj h
    have h3 : (⟨1, 1⟩ : Position Rat) = ⟨1 * line_scale, 1 * line_scale⟩ :=
      Event.MouseScrolled.inj h2
    have h4 : (1 : Rat) = 1 * line_scale := congrArg Position.x h3
    rw [line_scale] at h4
    norm_num at h4

/-- C8 (amended): both conversion sites normalize pixel-delta and line-delta
scroll inputs into the same floating-point offset fields of the
`MouseScrolled` event; the runner's conversion (`Context::window_event` in
`lib.rs`) applies the explicit, documented scale factor `line_scale = 2.0` to
line-delta inputs and passes pixel-delta offsets through unscaled (only the
`as f32` narrowing), while the legacy `TryFrom<WinitEvent>` conversion in
`event.rs` passes line-delta through unscaled as well. -/
theorem c8_scroll_normalization (x y : Rat) :
    mouse_scrolled_offsets (.LineDelta x y) = (x * line_scale, y * line_scale) ∧
    mouse_scrolled_offsets (.PixelDelta x y) = (f32_of_f64 x, f32_of_f64 y) ∧
    Event.try_from (.WindowEvent (.MouseWheel (.LineDelta x y)))
      = Except.ok (.MouseScrolled ⟨x, y⟩) ∧
    Event.try_from (.WindowEvent (.MouseWheel (.PixelDelta x y)))
      = Except.ok (.MouseScrolled ⟨f32_of_f64 x, f32_of_f64 y⟩) :=
  ⟨rfl, rfl, rfl, rfl⟩

/-- C9: `exit()` is a request, not a teardown — when a control-flow sink is
attached it is overwritten with `Exit` and nothing else in the context (the
layer stack, the application state, the frame duration) changes; when no
sink is attached the context is left entirely unchanged. -/
theorem c9_exit_request (α : Type) (ctx : EventContext α) :
    (∀ cf, ctx.layer_context.control_flow = some cf →
        EventContext.exit ctx
          = { ctx with layer_context :=
                { ctx.layer_context with control_flow := some ControlFlow.Exit } }) ∧
    (ctx.layer_context.control_flow = none → EventContext.exit ctx = ctx) := by
  constructor
  · intro cf hcf
    rw [EventContext.exit]
    rw [hcf]
  · intro h
    rw [EventContext.exit]
    rw [h]

/-- C9 witness: with a sink holding `Poll`, `exit` rewrites it to `Exit` and
leaves the rest of the context unchanged; with no sink, `exit` is the
identity. -/
theorem c9_exit_request_witness :
    EventContext.exit (α := Unit)
        { layer_context :=
            { delta_time := 0, application := (), control_flow := some ControlFlow.Poll },
          layer_stack := LayerStack.new }
      = { layer_context :=
            { delta_time := 0, application := (), control_flow := some ControlFlow.Exit },
          layer_stack := LayerStack.new } ∧
    EventContext.exit (α := Unit)
        { layer_context := { delta_time := 0, application := (), control_flow := none },
          layer_stack := LayerStack.new }
      = { layer_context := { delta_time := 0, application := (), control_flow := none },
          layer_stack := LayerStack.new } :=
  ⟨(c9_exit_request Unit _).1 ControlFlow.Poll rfl, (c9_exit_request Unit _).2 rfl⟩
